import Mathlib

/-!
The service `gofinal`: user management over HTTP on a document collection.

A shallow embedding of `main.go`.  The handlers are translated one by one;
what they call in the JSON library, the BSON driver, the router and the clock
is modelled by the definitions of the first sections, at the level of the
documented behaviour of those libraries:

* the collection `crud.users` is a list of documents in insertion order, the
  server refusing an insert whose `_id` is already present;
* a request body is what the JSON scanner makes of the byte stream: either no
  complete JSON value (syntax error, premature end of input) or the first JSON
  value of the stream;
* everything a handler reads from the outside world (the clock, the object id
  the driver generates, whether the store call goes through, the time
  library's JSON decoding of a timestamp) is a field of `Env`;
* instants are counted in nanoseconds, the resolution of `time.Time`; a BSON
  date keeps whole milliseconds only, and the JSON encoder refuses an instant
  whose year is not between 0 and 9999.  Instants are those that `time.Now`
  and the decoding of an RFC 3339 string give, far from where the 64-bit
  counts of the libraries would overflow.
-/

namespace Gofinal

/-! ## Instants -/

/-- An instant (`time.Time`), in nanoseconds counted from the zero instant of
the time library (January 1 of year 1, 00:00 UTC). -/
structure Time where
  ns : Int
deriving DecidableEq, Repr

/-- The zero value of `time.Time`. -/
def Time.zero : Time := ⟨0⟩

/-- `Time.IsZero`. -/
def Time.IsZero (t : Time) : Bool := t.ns == 0

/-- The instant a BSON date keeps of an instant, and gives back in UTC when
decoded: the whole milliseconds, the rest of the nanoseconds dropped
(`t.Unix()*1e3 + t.Nanosecond()/1e6`). -/
def Time.truncMs (t : Time) : Time := ⟨t.ns / 1000000 * 1000000⟩

/-- Whether the UTC year of the instant lies between 0 and 9999, which
`Time.MarshalJSON` demands: from January 1 of year 0 (366 days before the
zero instant) to before January 1 of year 10000 (3652059 days after it). -/
def Time.yearInRange (t : Time) : Bool :=
  decide (-31622400000000000 ≤ t.ns) && decide (t.ns < 315537897600000000000)

/-! ## Object identifiers -/

/-- A `primitive.ObjectID`: twelve bytes, read as one big-endian number. -/
abbrev ObjectID := Fin (2 ^ 96)

/-- Value of one hexadecimal digit (`encoding/hex` accepts both cases). -/
def fromHexChar (c : Char) : Option Nat :=
  if 48 ≤ c.toNat ∧ c.toNat ≤ 57 then some (c.toNat - 48)
  else if 97 ≤ c.toNat ∧ c.toNat ≤ 102 then some (c.toNat - 97 + 10)
  else if 65 ≤ c.toNat ∧ c.toNat ≤ 70 then some (c.toNat - 65 + 10)
  else none

/-- Big-endian value of a run of hexadecimal digits, `none` at the first
character that is not one. -/
def hexDecode : List Char → Nat → Option Nat
  | [], acc => some acc
  | c :: cs, acc =>
    match fromHexChar c with
    | none => none
    | some d => hexDecode cs (acc * 16 + d)

/-- `primitive.ObjectIDFromHex`: the string must be 24 bytes long and made of
hexadecimal digits only; `none` stands for `ErrInvalidHex` and the decoding
errors. -/
def ObjectIDFromHex (s : String) : Option ObjectID :=
  if s.utf8ByteSize ≠ 24 then none
  else
    match hexDecode s.data 0 with
    | none => none
    | some n => some ⟨n % 2 ^ 96, Nat.mod_lt _ (Nat.pos_pow_of_pos 96 (by decide))⟩

/-- The lower-case hexadecimal digit of a value below sixteen. -/
def hexDigit (n : Nat) : Char :=
  if n < 10 then Char.ofNat (48 + n) else Char.ofNat (87 + n)

/-- `ObjectID.Hex`: the 24 lower-case hexadecimal digits of the identifier. -/
def ObjectID.Hex (o : ObjectID) : String :=
  String.mk ((List.range 24).map fun i => hexDigit (o.val / 16 ^ (23 - i) % 16))

/-! ## JSON request bodies -/

/-- A JSON value. -/
inductive JValue where
  | null
  | bool (b : Bool)
  | number (lit : String)
  | string (s : String)
  | array (elems : List JValue)
  | object (members : List (String × JValue))

/-- What `json.NewDecoder(r.Body)` finds on the request body: no complete JSON
value (`invalid`: a syntax error or the end of the input), or the first JSON
value of the stream. -/
inductive ReqBody where
  | invalid
  | value (v : JValue)

/-! ## The user record -/

/-- The struct `User`. -/
structure User where
  ID : String
  Username : String
  Email : String
  Password : String
  Created : Time
deriving DecidableEq, Repr

/-- The zero value of `User` (`var user User`). -/
def User.zeroValue : User := ⟨"", "", "", "", Time.zero⟩

/-! ## The outside world -/

/-- What one request reads from outside the program.
`now` is the reading of `time.Now()`, an instant not before the Unix epoch
(January 1 of 1970, 719162 days after the zero instant) and before year 10000;
`newObjectID` is the identifier the driver generates for a document inserted
without `_id`; `storeUp` tells whether the store call of the request goes
through (no driver or network error); `timeUnmarshalJSON v t` is
`(*time.Time).UnmarshalJSON` run on the JSON value `v` with receiver `t`: the
receiver afterwards and whether an error was returned;
`stopAtUnmarshalError` tells which `encoding/json` the program is built with:
the classic one, where `Decode` returns at once when a member's own
`UnmarshalJSON` fails, or the one built on `json/v2`, where the error is kept
and the remaining members are decoded. -/
structure Env where
  now : Time
  now_range : 62135596800000000000 ≤ now.ns ∧ now.ns < 315537897600000000000
  newObjectID : ObjectID
  storeUp : Bool
  timeUnmarshalJSON : JValue → Time → Time × Bool
  stopAtUnmarshalError : Bool

/-! ## Decoding a body into a `User` (`encoding/json`) -/

/-- Case folding of field names: ASCII letters to upper case, and the two
non-ASCII characters whose fold class holds an ASCII letter (long s, Kelvin
sign).  Every other character is left alone, which gives the same matches
against the ASCII field names of `User`. -/
def foldRune (c : Char) : Char :=
  if 97 ≤ c.toNat ∧ c.toNat ≤ 122 then Char.ofNat (c.toNat - 32)
  else if c.toNat = 0x17F then 'S'
  else if c.toNat = 0x212A then 'K'
  else c

/-- Folded form of an object key. -/
def foldName (s : String) : String := String.mk (s.data.map foldRune)

/-- The fields of `User` that carry a JSON name.  `Password` is tagged
`json:"-"` and has none. -/
inductive UserField where
  | id
  | username
  | email
  | created
deriving DecidableEq, Repr

/-- The field an object key designates: exact name, else equal under case
folding; `none` for a key that designates no field (it is skipped). -/
def jsonField (key : String) : Option UserField :=
  if foldName key = "ID" then some .id
  else if foldName key = "USERNAME" then some .username
  else if foldName key = "EMAIL" then some .email
  else if foldName key = "CREATED" then some .created
  else none

/-- Storing a JSON value into a string field: a JSON string is stored, `null`
leaves the field alone, any other value leaves the field alone and records an
`UnmarshalTypeError`.  Returns the field and whether an error was recorded. -/
def storeString (v : JValue) (cur : String) : String × Bool :=
  match v with
  | .string s => (s, false)
  | .null => (cur, false)
  | _ => (cur, true)

/-- Decoding of the members of a JSON object into a `User`, in order.  `err`
is the saved error so far.  A type error on a string field is saved and the
decoding goes on; an error returned by the timestamp's own `UnmarshalJSON`
stops the decoding at once with the classic `encoding/json`, and is saved, the
decoding going on, with the one built on `json/v2`. -/
def decodeMembers (env : Env) : List (String × JValue) → User → Bool → User × Bool
  | [], u, err => (u, err)
  | (k, v) :: rest, u, err =>
    match jsonField k with
    | none => decodeMembers env rest u err
    | some .id =>
      decodeMembers env rest { u with ID := (storeString v u.ID).1 } (err || (storeString v u.ID).2)
    | some .username =>
      decodeMembers env rest { u with Username := (storeString v u.Username).1 }
        (err || (storeString v u.Username).2)
    | some .email =>
      decodeMembers env rest { u with Email := (storeString v u.Email).1 }
        (err || (storeString v u.Email).2)
    | some .created =>
      if (env.timeUnmarshalJSON v u.Created).2 then
        if env.stopAtUnmarshalError then
          ({ u with Created := (env.timeUnmarshalJSON v u.Created).1 }, true)
        else
          decodeMembers env rest { u with Created := (env.timeUnmarshalJSON v u.Created).1 } true
      else
        decodeMembers env rest { u with Created := (env.timeUnmarshalJSON v u.Created).1 } err

/-- `json.NewDecoder(r.Body).Decode(&user)`: the struct afterwards and whether
the call returned an error.  Without a complete JSON value nothing is stored.
An object is decoded member by member, `null` is accepted and stores nothing,
any other value is an `UnmarshalTypeError`. -/
def decodeUser (env : Env) (b : ReqBody) (u : User) : User × Bool :=
  match b with
  | .invalid => (u, true)
  | .value (.object members) => decodeMembers env members u false
  | .value .null => (u, false)
  | .value _ => (u, true)

/-! ## The collection (`go.mongodb.org/mongo-driver`) -/

/-- The `_id` of a document: an object id, or a string (a `User` whose `ID` is
not empty is marshalled with that string as `_id`). -/
inductive BsonId where
  | oid (o : ObjectID)
  | str (s : String)
deriving DecidableEq

/-- A document of the collection `users`.  A field tagged `omitempty` whose
value is empty is absent from the document; `created` is a BSON date, an
instant of whole milliseconds. -/
structure Doc where
  _id : BsonId
  username : Option String
  email : Option String
  password : Option String
  created : Option Time
deriving DecidableEq

/-- The collection `crud.users`, in insertion order. -/
abbrev Store := List Doc

/-- Errors of a store call. -/
inductive StoreError where
  | unavailable
  | duplicateKey
  | noDocuments
deriving DecidableEq, Repr

/-- The `omitempty` rule for a string field. -/
def omitEmpty (s : String) : Option String := if s = "" then none else some s

/-- The `omitempty` rule for a timestamp (`IsZero`). -/
def omitZero (t : Time) : Option Time := if t.IsZero then none else some t

/-- The `_id` under which a `User` is inserted: its `ID` when not empty, else
the object id generated by the driver. -/
def insertId (env : Env) (u : User) : BsonId :=
  match omitEmpty u.ID with
  | some s => .str s
  | none => .oid env.newObjectID

/-- BSON marshalling of a `User` for insertion; the timestamp, when not left
out, is written as a BSON date. -/
def marshalUser (env : Env) (u : User) : Doc :=
  { _id := insertId env u
    username := omitEmpty u.Username
    email := omitEmpty u.Email
    password := omitEmpty u.Password
    created := (omitZero u.Created).map Time.truncMs }

/-- BSON unmarshalling of a document into a `User`: an object id is decoded
into the string field as its hexadecimal form, an absent field leaves the zero
value. -/
def unmarshalDoc (d : Doc) : User :=
  { ID := match d._id with
          | .oid o => o.Hex
          | .str s => s
    Username := d.username.getD ""
    Email := d.email.getD ""
    Password := d.password.getD ""
    Created := d.created.getD Time.zero }

/-- `collection.InsertOne(ctx, user)`. -/
def InsertOne (env : Env) (coll : Store) (u : User) : Except StoreError Store :=
  if env.storeUp then
    if coll.any (fun d => d._id == insertId env u) then .error .duplicateKey
    else .ok (coll ++ [marshalUser env u])
  else .error .unavailable

/-- `collection.FindOne(ctx, bson.M{"_id": objID}).Decode(&user)`. -/
def FindOne (env : Env) (coll : Store) (objID : ObjectID) : Except StoreError User :=
  if env.storeUp then
    match coll.find? (fun d => d._id == .oid objID) with
    | some d => .ok (unmarshalDoc d)
    | none => .error .noDocuments
  else .error .unavailable

/-- `collection.DeleteOne(ctx, bson.M{"_id": objID})`: the first matching
document is removed; no match is not an error. -/
def DeleteOne (env : Env) (coll : Store) (objID : ObjectID) : Except StoreError Store :=
  if env.storeUp then .ok (coll.eraseP (fun d => d._id == .oid objID))
  else .error .unavailable

/-- The first document with the given object id gets `username` and `email`
set. -/
def setFirst (objID : ObjectID) (username email : String) : Store → Store
  | [] => []
  | d :: ds =>
    if d._id == .oid objID then
      { d with username := some username, email := some email } :: ds
    else d :: setFirst objID username email ds

/-- `collection.UpdateOne(ctx, filter, update)` with the filter on `_id` and
the update `$set` of `username` and `email`; no match is not an error and
nothing is inserted. -/
def UpdateOne (env : Env) (coll : Store) (objID : ObjectID) (username email : String) :
    Except StoreError Store :=
  if env.storeUp then .ok (setFirst objID username email coll)
  else .error .unavailable

/-- `collection.Find(ctx, bson.M{})` and the cursor loop: every document
decoded, in order. -/
def Find (env : Env) (coll : Store) : Except StoreError (List User) :=
  if env.storeUp then .ok (coll.map unmarshalDoc)
  else .error .unavailable

/-! ## Responses -/

/-- A value of the JSON document written for a `User`. -/
inductive EncValue where
  | str (s : String)
  | time (t : Time)
deriving DecidableEq, Repr

/-- `json.NewEncoder(w).Encode(user)`: the members of the object written, in
order, or `none` when the encoder returns an error and writes nothing, which
it does when the year of `Created` is not between 0 and 9999.  A string field
tagged `omitempty` is left out when empty, `created` is always written
(`omitempty` does not apply to a struct), `Password` is tagged `json:"-"` and
is never written. -/
def encodeUser (u : User) : Option (List (String × EncValue)) :=
  if u.Created.yearInRange then
    some
      ((if u.ID = "" then [] else [("id", EncValue.str u.ID)]) ++
       (if u.Username = "" then [] else [("username", EncValue.str u.Username)]) ++
       (if u.Email = "" then [] else [("email", EncValue.str u.Email)]) ++
       [("created", EncValue.time u.Created)])
  else none

/-- The body of a response. -/
inductive RespBody where
  | empty
  | text (s : String)
  | json (members : List (String × EncValue))
  | page (template : String) (data : List User)
deriving DecidableEq

/-- An HTTP response. -/
structure Response where
  status : Nat
  contentType : Option String
  body : RespBody
deriving DecidableEq

/-- `http.Error(w, msg, code)`. -/
def httpError (msg : String) (code : Nat) : Response :=
  ⟨code, some "text/plain; charset=utf-8", .text (msg ++ "\n")⟩

/-- `w.WriteHeader(code)` and nothing written. -/
def writeHeader (code : Nat) : Response := ⟨code, none, .empty⟩

/-- A template executed on `w`. -/
def render (template : String) (data : List User) : Response :=
  ⟨200, some "text/html; charset=utf-8", .page template data⟩

/-- What `getUserHandler` sends for a user it has found: the error of `Encode`
is dropped, the response then has the status 200 and the content type set
before, and no body. -/
def encodeResponse (u : User) : Response :=
  match encodeUser u with
  | some members => ⟨200, some "application/json", .json members⟩
  | none => ⟨200, some "application/json", .empty⟩

/-- Value of a member of a JSON document. -/
def member? (key : String) (members : List (String × EncValue)) : Option EncValue :=
  (members.find? (fun kv => kv.1 == key)).map Prod.snd

/-! ## The handlers -/

/-- `getUserById`: `none` stands for the `(nil, err)` return. -/
def getUserById (env : Env) (coll : Store) (id : String) : Option User :=
  match ObjectIDFromHex id with
  | none => none
  | some objID =>
    match FindOne env coll objID with
    | .error _ => none
    | .ok user => some user

/-- `getUserHandler` (GET /user/{id}). -/
def getUserHandler (env : Env) (coll : Store) (id : String) : Store × Response :=
  match getUserById env coll id with
  | none => (coll, httpError "User not found" 404)
  | some user => (coll, encodeResponse user)

/-- `deleteHandler` (DELETE /delete/{id}). -/
def deleteHandler (env : Env) (coll : Store) (id : String) : Store × Response :=
  match ObjectIDFromHex id with
  | none => (coll, httpError "Invalid ID" 400)
  | some objID =>
    match DeleteOne env coll objID with
    | .error _ => (coll, httpError "Internal Server Error" 500)
    | .ok coll' => (coll', writeHeader 200)

/-- `adminAddUserHandler` (POST /admin/add): the error of `Decode` is
dropped. -/
def adminAddUserHandler (env : Env) (coll : Store) (body : ReqBody) : Store × Response :=
  let user := (decodeUser env body User.zeroValue).1
  match InsertOne env coll user with
  | .error _ => (coll, httpError "Internal Server Error" 500)
  | .ok coll' => (coll', writeHeader 201)

/-- `registerHandler` (POST /register): the error of `Decode` is dropped and
`Created` is overwritten with the clock reading. -/
def registerHandler (env : Env) (coll : Store) (body : ReqBody) : Store × Response :=
  let user := (decodeUser env body User.zeroValue).1
  let user := { user with Created := env.now }
  match InsertOne env coll user with
  | .error _ => (coll, httpError "Internal Server Error" 500)
  | .ok coll' => (coll', writeHeader 201)

/-- `adminEditUserHandler` (PUT /admin/edit/{id}): the body is decoded first,
then the identifier. -/
def adminEditUserHandler (env : Env) (coll : Store) (id : String) (body : ReqBody) :
    Store × Response :=
  let userUpdate := decodeUser env body User.zeroValue
  if userUpdate.2 then (coll, httpError "Bad Request" 400)
  else
    match ObjectIDFromHex id with
    | none => (coll, httpError "Invalid ID" 400)
    | some objID =>
      match UpdateOne env coll objID userUpdate.1.Username userUpdate.1.Email with
      | .error _ => (coll, httpError "Internal Server Error" 500)
      | .ok coll' => (coll', writeHeader 200)

/-- `homeHandler` (GET /). -/
def homeHandler (coll : Store) : Store × Response :=
  (coll, render "index.html" [])

/-- `adminAddHandler` (GET /admin/add). -/
def adminAddHandler (coll : Store) : Store × Response :=
  (coll, render "admin_add.html" [])

/-- `getAllUsers`. -/
def getAllUsers (env : Env) (coll : Store) : Except StoreError (List User) :=
  Find env coll

/-- `adminHandler` (GET /admin). -/
def adminHandler (env : Env) (coll : Store) : Store × Response :=
  match getAllUsers env coll with
  | .error _ => (coll, httpError "Internal Server Error" 500)
  | .ok users => (coll, render "admin.html" users)

/-- `adminEditHandler` (GET /admin/edit/{id}). -/
def adminEditHandler (env : Env) (coll : Store) (id : String) : Store × Response :=
  match getUserById env coll id with
  | none => (coll, httpError "User not found" 404)
  | some user => (coll, render "admin_edit.html" [user])

/-! ## The service as a transition system -/

/-- A request, as routed by `init`. -/
inductive Request where
  | home
  | getUser (id : String)
  | register (body : ReqBody)
  | delete (id : String)
  | admin
  | adminAddForm
  | adminAdd (body : ReqBody)
  | adminEditForm (id : String)
  | adminEdit (id : String) (body : ReqBody)

/-- The router: one request handled in one state of the collection. -/
def handle (env : Env) (coll : Store) : Request → Store × Response
  | .home => homeHandler coll
  | .getUser id => getUserHandler env coll id
  | .register body => registerHandler env coll body
  | .delete id => deleteHandler env coll id
  | .admin => adminHandler env coll
  | .adminAddForm => adminAddHandler coll
  | .adminAdd body => adminAddUserHandler env coll body
  | .adminEditForm id => adminEditHandler env coll id
  | .adminEdit id body => adminEditUserHandler env coll id body

/-- The states of the collection the handlers can produce from the empty
collection. -/
inductive Reachable : Store → Prop where
  | init : Reachable []
  | step {coll : Store} (env : Env) (req : Request) :
      Reachable coll → Reachable (handle env coll req).1

/-- No two documents of the collection share an `_id`. -/
def UniqueIds (coll : Store) : Prop := (coll.map Doc._id).Nodup

/-! ## Predicates used by the statements -/

/-- A status of the 4xx class. -/
def IsClientError (r : Response) : Prop := 400 ≤ r.status ∧ r.status < 500

/-- A status of the 5xx class. -/
def IsServerError (r : Response) : Prop := 500 ≤ r.status ∧ r.status < 600

instance (coll : Store) : Decidable (UniqueIds coll) := by
  unfold UniqueIds; infer_instance

/-- The string a client reads for a member of a JSON document: the member's
string, the empty string when the member is absent. -/
def readString (key : String) (members : List (String × EncValue)) : String :=
  match member? key members with
  | some (.str s) => s
  | _ => ""

/-- Two collections that differ at most in the password of the documents
whose `_id` is the object id `objID`. -/
def DifferOnlyInPasswordOf (objID : ObjectID) (c₁ c₂ : Store) : Prop :=
  List.Forall₂
    (fun d₁ d₂ => d₁ = d₂ ∨ (d₁._id = .oid objID ∧ d₂ = { d₁ with password := d₂.password }))
    c₁ c₂

/-! ## Sample data -/

/-- A sample JSON decoding of timestamps: two RFC 3339 strings are known, the
second one an instant of year 9999 one hour west of Greenwich, which is in
year 10000 in UTC. -/
def sampleTimeUnmarshal (v : JValue) (t : Time) : Time × Bool :=
  match v with
  | .null => (t, false)
  | .string s =>
    if s = "2020-01-01T00:00:00Z" then (⟨63713433600000000000⟩, false)
    else if s = "9999-12-31T23:59:59-01:00" then (⟨315537901199000000000⟩, false)
    else (Time.zero, true)
  | _ => (t, true)

/-- A sample object id. -/
def sampleOid : ObjectID := ⟨0x65a1b2c3d4e5f60718293a4b, by norm_num⟩

/-- A second sample object id. -/
def otherOid : ObjectID := ⟨0x65a1b2c3d4e5f60718293a4c, by norm_num⟩

/-- A sample environment: the store is up and the driver generates
`sampleOid`. -/
def sampleEnv : Env :=
  { now := ⟨63840000000000000000⟩
    now_range := by decide
    newObjectID := sampleOid
    storeUp := true
    timeUnmarshalJSON := sampleTimeUnmarshal
    stopAtUnmarshalError := true }

/-- The same environment a little later, the driver generating `otherOid`. -/
def laterEnv : Env :=
  { now := ⟨63840000005000000000⟩
    now_range := by decide
    newObjectID := otherOid
    storeUp := true
    timeUnmarshalJSON := sampleTimeUnmarshal
    stopAtUnmarshalError := true }

/-- A third environment, the driver generating an object id that
`sampleStore` does not hold. -/
def freshEnv : Env :=
  { now := ⟨63840000009000000000⟩
    now_range := by decide
    newObjectID := ⟨0x65a1b2c3d4e5f60718293a4d, by norm_num⟩
    storeUp := true
    timeUnmarshalJSON := sampleTimeUnmarshal
    stopAtUnmarshalError := true }

/-- The body of the scenario of the specification. -/
def aliceBody : ReqBody :=
  .value (.object [("username", .string "alice"), ("email", .string "a@x.com")])

/-- A collection holding alice, with a password, and bob. -/
def sampleStore : Store :=
  [ { _id := .oid sampleOid, username := some "alice", email := some "a@x.com",
      password := some "hunter2", created := some ⟨63840000000000000000⟩ },
    { _id := .oid otherOid, username := some "bob", email := none,
      password := none, created := none } ]

/-- The collection `sampleStore` with another password for alice. -/
def rekeyedStore : Store :=
  [ { _id := .oid sampleOid, username := some "alice", email := some "a@x.com",
      password := some "correct horse", created := some ⟨63840000000000000000⟩ },
    { _id := .oid otherOid, username := some "bob", email := none,
      password := none, created := none } ]

/-- A body that carries a creation timestamp of its own. -/
def backdatedBody : ReqBody :=
  .value (.object [("username", .string "carol"), ("created", .string "2020-01-01T00:00:00Z")])

/-- A body whose creation timestamp is in year 10000 in UTC. -/
def farBody : ReqBody :=
  .value (.object [("username", .string "dave"), ("email", .string "d@x.com"),
    ("created", .string "9999-12-31T23:59:59-01:00")])

/-- An environment whose clock reads half a millisecond after a whole
millisecond. -/
def subMillisecondEnv : Env :=
  { now := ⟨63840000000000500000⟩
    now_range := by decide
    newObjectID := sampleOid
    storeUp := true
    timeUnmarshalJSON := sampleTimeUnmarshal
    stopAtUnmarshalError := false }

/-- An instant 0.2 ms after the same whole millisecond. -/
def issuedInstant : Time := ⟨63840000000000200000⟩

/-- A body that carries an identifier of its own. -/
def ownIdBody : ReqBody :=
  .value (.object [("id", .string "chosen-by-client"), ("username", .string "mallory")])

/-! ## Lemmas on instants -/

/-- The clock never reads the zero instant. -/
theorem Env.now_ne_zero (env : Env) : env.now.IsZero = false := by
  have h := env.now_range.1
  simp only [Time.IsZero, beq_eq_false_iff_ne, ne_eq]
  omega

/-- The clock reading is not left out of a document. -/
theorem omitZero_now (env : Env) : omitZero env.now = some env.now := by
  simp [omitZero, env.now_ne_zero]

/-- A BSON date is not later than the instant it was made of. -/
theorem truncMs_le (t : Time) : t.truncMs.ns ≤ t.ns :=
  Int.ediv_mul_le t.ns (by norm_num)

/-- A BSON date is less than one millisecond before the instant it was made
of. -/
theorem truncMs_gt (t : Time) : t.ns - 1000000 < t.truncMs.ns := by
  have h := Int.lt_ediv_add_one_mul_self t.ns (show (0 : Int) < 1000000 by norm_num)
  simp only [Time.truncMs]
  linarith

/-- Cutting to the millisecond keeps the order of instants. -/
theorem truncMs_mono (a b : Time) (h : a.ns ≤ b.ns) : a.truncMs.ns ≤ b.truncMs.ns := by
  have h' := Int.ediv_le_ediv (show (0 : Int) < 1000000 by norm_num) h
  simp only [Time.truncMs]
  linarith

/-- The BSON date made of a clock reading is in the years the JSON encoder
writes, and is not the zero instant. -/
theorem truncMs_now (env : Env) :
    env.now.truncMs.yearInRange = true ∧ env.now.truncMs ≠ Time.zero := by
  have hlo := truncMs_mono ⟨62135596800000000000⟩ env.now env.now_range.1
  have hhi := truncMs_le env.now
  have hup := env.now_range.2
  have hval : (Time.truncMs ⟨62135596800000000000⟩).ns = 62135596800000000000 := by decide
  rw [hval] at hlo
  constructor
  · simp only [Time.yearInRange, Bool.and_eq_true, decide_eq_true_eq]
    constructor <;> omega
  · intro h
    rw [h] at hlo
    simp [Time.zero] at hlo

/-! ## Lemmas on the collection operations -/

/-- `setFirst` keeps the `_id` of every document, in order. -/
theorem setFirst_ids (objID : ObjectID) (un em : String) (coll : Store) :
    (setFirst objID un em coll).map Doc._id = coll.map Doc._id := by
  induction coll with
  | nil => rfl
  | cons d ds ih =>
    unfold setFirst
    split
    · simp
    · simp [ih]

/-- `setFirst` keeps every document in place with its `_id`, password and creation
timestamp, and changes no document with another `_id`. -/
theorem setFirst_frame (objID : ObjectID) (un em : String) (coll : Store) :
    List.Forall₂
      (fun d d' => d'._id = d._id ∧ d'.password = d.password ∧ d'.created = d.created ∧
        (d._id ≠ .oid objID → d' = d))
      coll (setFirst objID un em coll) := by
  induction coll with
  | nil => exact List.Forall₂.nil
  | cons d ds ih =>
    unfold setFirst
    split
    · rename_i h
      refine List.Forall₂.cons ⟨rfl, rfl, rfl, fun hne => ?_⟩ ?_
      · exact absurd (by simpa using h) hne
      · exact List.forall₂_same.mpr (fun x _ => ⟨rfl, rfl, rfl, fun _ => rfl⟩)
    · exact List.Forall₂.cons ⟨rfl, rfl, rfl, fun _ => rfl⟩ ih

/-- `setFirst` changes nothing when no document has the object id. -/
theorem setFirst_of_absent (objID : ObjectID) (un em : String) (coll : Store)
    (h : ∀ d ∈ coll, d._id ≠ .oid objID) : setFirst objID un em coll = coll := by
  induction coll with
  | nil => rfl
  | cons d ds ih =>
    unfold setFirst
    have hd : ¬ (d._id == BsonId.oid objID) = true := by
      simpa using h d (List.mem_cons_self _ _)
    rw [if_neg hd, ih (fun x hx => h x (List.mem_cons_of_mem _ hx))]

/-- In a collection with unique `_id`, looking an `_id` up finds the document
that has it. -/
theorem find?_of_unique (k : BsonId) (coll : Store) (hu : UniqueIds coll) (d : Doc)
    (hd : d ∈ coll) (hk : d._id = k) : coll.find? (fun x => x._id == k) = some d := by
  induction coll with
  | nil => cases hd
  | cons x xs ih =>
    have hu' : x._id ∉ xs.map Doc._id ∧ UniqueIds xs := by
      simpa [UniqueIds] using hu
    rcases List.mem_cons.mp hd with rfl | hmem
    · simp [List.find?, hk]
    · have hne : ¬ (x._id == k) = true := by
        intro hx
        have hx' : x._id = k := by simpa using hx
        exact hu'.1 (hx' ▸ hk ▸ List.mem_map_of_mem _ hmem)
      simp only [List.find?]
      rw [show (x._id == k) = false from by simpa using hne]
      exact ih hu'.2 hmem

/-- After `setFirst`, the first document with the object id is the former one
with `username` and `email` set. -/
theorem setFirst_find? (objID : ObjectID) (un em : String) (coll : Store) (d : Doc)
    (h : coll.find? (fun x => x._id == BsonId.oid objID) = some d) :
    (setFirst objID un em coll).find? (fun x => x._id == BsonId.oid objID) =
      some { d with username := some un, email := some em } := by
  induction coll with
  | nil => simp at h
  | cons x xs ih =>
    unfold setFirst
    by_cases hx : (x._id == BsonId.oid objID) = true
    · rw [if_pos hx]
      simp only [List.find?, hx] at h ⊢
      cases h
      rfl
    · rw [if_neg hx]
      have hx' : (x._id == BsonId.oid objID) = false := by simpa using hx
      simp only [List.find?, hx'] at h ⊢
      exact ih h

/-- In a collection with unique `_id`, nothing with that `_id` is left once the
first match is removed. -/
theorem eraseP_no_match (k : BsonId) (coll : Store) (hu : UniqueIds coll) :
    ∀ d ∈ coll.eraseP (fun x => x._id == k), d._id ≠ k := by
  induction coll with
  | nil => simp
  | cons x xs ih =>
    have hu' : x._id ∉ xs.map Doc._id ∧ UniqueIds xs := by
      simpa [UniqueIds] using hu
    by_cases hx : (x._id == k) = true
    · have e : (x :: xs).eraseP (fun y => y._id == k) = xs := List.eraseP_cons_of_pos hx
      rw [e]
      intro d hd hdk
      have hx' : x._id = k := by simpa using hx
      exact hu'.1 (hx' ▸ hdk ▸ List.mem_map_of_mem _ hd)
    · have e : (x :: xs).eraseP (fun y => y._id == k) = x :: xs.eraseP (fun y => y._id == k) :=
        List.eraseP_cons_of_neg hx
      rw [e]
      intro d hd
      rcases List.mem_cons.mp hd with rfl | hmem
      · simpa using hx
      · exact ih hu'.2 d hmem

/-- Removing the first match changes nothing when no document matches. -/
theorem eraseP_absent (k : BsonId) (coll : Store) (h : ∀ d ∈ coll, d._id ≠ k) :
    coll.eraseP (fun x => x._id == k) = coll :=
  List.eraseP_of_forall_not (fun d hd => by simpa using h d hd)

/-- Removing a document keeps the `_id` unique. -/
theorem eraseP_unique (k : BsonId) (coll : Store) (hu : UniqueIds coll) :
    UniqueIds (coll.eraseP (fun x => x._id == k)) := by
  unfold UniqueIds at *
  exact hu.sublist ((List.eraseP_sublist coll).map Doc._id)

/-- The `_id` of an insertion does not depend on `Created`. -/
theorem insertId_created (env : Env) (u : User) (t : Time) :
    insertId env { u with Created := t } = insertId env u := rfl

/-- `InsertOne` succeeds and appends the marshalled user when the store is up
and the `_id` is free. -/
theorem InsertOne_ok (env : Env) (coll : Store) (u : User) (hup : env.storeUp = true)
    (hfree : ∀ d ∈ coll, d._id ≠ insertId env u) :
    InsertOne env coll u = .ok (coll ++ [marshalUser env u]) := by
  unfold InsertOne
  have hany : coll.any (fun d => d._id == insertId env u) = false := by
    rw [List.any_eq_false]
    intro d hd
    simpa using hfree d hd
  simp [hup, hany]

/-- A successful `InsertOne` has appended the marshalled user, under an `_id`
that was free. -/
theorem InsertOne_inv (env : Env) (coll coll' : Store) (u : User)
    (h : InsertOne env coll u = .ok coll') :
    coll' = coll ++ [marshalUser env u] ∧ ∀ d ∈ coll, d._id ≠ insertId env u := by
  unfold InsertOne at h
  by_cases hup : env.storeUp = true
  · by_cases hany : coll.any (fun d => d._id == insertId env u) = true
    · simp [hup, hany] at h
    · simp only [hup, hany, if_true] at h
      refine ⟨by cases h; rfl, fun d hd hid => hany ?_⟩
      exact List.any_eq_true.mpr ⟨d, hd, by simpa using hid⟩
  · simp [hup] at h

/-- A successful `InsertOne` keeps the `_id` unique. -/
theorem InsertOne_unique (env : Env) (coll coll' : Store) (u : User)
    (h : InsertOne env coll u = .ok coll') (hu : UniqueIds coll) : UniqueIds coll' := by
  obtain ⟨rfl, hfree⟩ := InsertOne_inv env coll coll' u h
  unfold UniqueIds at *
  rw [List.map_append, List.nodup_append]
  refine ⟨hu, by simp, ?_⟩
  intro a ha hb
  simp only [List.map_cons, List.map_nil, List.mem_singleton] at hb
  obtain ⟨d, hd, rfl⟩ := List.mem_map.mp ha
  exact hfree d hd hb

/-- Every handler keeps the `_id` unique. -/
theorem handle_unique (env : Env) (coll : Store) (req : Request) (hu : UniqueIds coll) :
    UniqueIds (handle env coll req).1 := by
  cases req with
  | home => exact hu
  | getUser id =>
    simp only [handle, getUserHandler]
    split <;> exact hu
  | register body =>
    simp only [handle, registerHandler]
    split
    · exact hu
    · rename_i c h
      exact InsertOne_unique env coll c _ h hu
  | delete id =>
    simp only [handle, deleteHandler]
    split
    · exact hu
    · unfold DeleteOne
      by_cases hup : env.storeUp = true
      · simpa [hup] using eraseP_unique _ coll hu
      · simpa [hup] using hu
  | admin =>
    simp only [handle, adminHandler]
    split <;> exact hu
  | adminAddForm => exact hu
  | adminAdd body =>
    simp only [handle, adminAddUserHandler]
    split
    · exact hu
    · rename_i c h
      exact InsertOne_unique env coll c _ h hu
  | adminEditForm id =>
    simp only [handle, adminEditHandler]
    split <;> exact hu
  | adminEdit id body =>
    simp only [handle, adminEditUserHandler]
    split
    · exact hu
    · split
      · exact hu
      · unfold UpdateOne
        by_cases hup : env.storeUp = true
        · simp only [hup, if_true]
          unfold UniqueIds
          rw [setFirst_ids]
          exact hu
        · simpa [hup] using hu

/-- In every reachable state the `_id` are unique. -/
theorem reachable_unique (coll : Store) (h : Reachable coll) : UniqueIds coll := by
  induction h with
  | init => exact List.nodup_nil
  | step env req _ ih => exact handle_unique env _ req ih

/-- Looking up the `_id` of a document appended under a free `_id` finds it. -/
theorem find?_append_last (coll : Store) (d : Doc) (k : BsonId)
    (hfree : ∀ x ∈ coll, x._id ≠ k) (hk : d._id = k) :
    (coll ++ [d]).find? (fun x => x._id == k) = some d := by
  rw [List.find?_append, List.find?_eq_none.mpr (fun x hx => by simpa using hfree x hx)]
  simp [List.find?, hk]

/-- A document appended under a string `_id` is found by no lookup of an
object id. -/
theorem find?_append_str (coll : Store) (d : Doc) (s : String) (objID : ObjectID)
    (h : d._id = .str s) :
    (coll ++ [d]).find? (fun x => x._id == BsonId.oid objID) =
      coll.find? (fun x => x._id == BsonId.oid objID) := by
  have hne : (BsonId.str s == BsonId.oid objID) = false := by
    rw [beq_eq_false_iff_ne]
    intro hc
    cases hc
  have hd : [d].find? (fun x => x._id == BsonId.oid objID) = none := by
    simp only [List.find?, h, hne]
  rw [List.find?_append, hd, Option.or_none]

/-! ## Lemmas on identifiers -/

/-- A lower-case hexadecimal digit is one byte long and decodes to its value. -/
theorem hexDigit_spec : ∀ n, n < 16 →
    fromHexChar (hexDigit n) = some n ∧ (hexDigit n).utf8Size = 1 := by
  decide

/-- Decoding the `n` low hexadecimal digits of `v` after `acc`. -/
theorem hexDecode_digits (v : Nat) : ∀ (n acc : Nat),
    hexDecode ((List.range n).map fun i => hexDigit (v / 16 ^ (n - 1 - i) % 16)) acc =
      some (acc * 16 ^ n + v % 16 ^ n) := by
  intro n
  induction n with
  | zero => intro acc; simp [hexDecode, Nat.mod_one]
  | succ n ih =>
    intro acc
    rw [List.range_succ_eq_map, List.map_cons, List.map_map]
    have hfun : ((fun i => hexDigit (v / 16 ^ (n + 1 - 1 - i) % 16)) ∘ Nat.succ) =
        fun i => hexDigit (v / 16 ^ (n - 1 - i) % 16) := by
      funext i
      have e : n + 1 - 1 - Nat.succ i = n - 1 - i := by omega
      simp only [Function.comp, e]
    rw [hfun]
    simp only [hexDecode, Nat.add_sub_cancel, Nat.sub_zero]
    rw [(hexDigit_spec _ (Nat.mod_lt _ (by decide))).1]
    simp only
    rw [ih, Nat.mod_pow_succ]
    congr 1
    ring

/-- The byte length of a string of one-byte characters is its length. -/
theorem utf8ByteSize_go_of_ascii (l : List Char) (h : ∀ c ∈ l, c.utf8Size = 1) :
    String.utf8ByteSize.go l = l.length := by
  induction l with
  | nil => rfl
  | cons c cs ih =>
    simp only [String.utf8ByteSize.go, List.length_cons]
    rw [ih (fun x hx => h x (List.mem_cons_of_mem _ hx)), h c (List.mem_cons_self _ _)]

/-- The hexadecimal form of an object id parses back to it. -/
theorem ObjectIDFromHex_Hex (o : ObjectID) : ObjectIDFromHex o.Hex = some o := by
  unfold ObjectIDFromHex ObjectID.Hex
  have hsize : (String.mk ((List.range 24).map fun i =>
      hexDigit (o.val / 16 ^ (23 - i) % 16))).utf8ByteSize = 24 := by
    show String.utf8ByteSize.go _ = 24
    rw [utf8ByteSize_go_of_ascii]
    · simp
    · intro c hc
      obtain ⟨i, _, rfl⟩ := List.mem_map.mp hc
      exact (hexDigit_spec _ (Nat.mod_lt _ (by decide))).2
  rw [if_neg (by rw [hsize]; decide)]
  have hdec := hexDecode_digits o.val 24 0
  simp only [Nat.reduceSub] at hdec
  simp only [hdec]
  have hlt : o.val < 16 ^ 24 := by
    have := o.isLt
    norm_num at this ⊢
    exact this
  congr 1
  apply Fin.ext
  simp only [Nat.zero_mul, Nat.zero_add]
  rw [Nat.mod_eq_of_lt hlt, Nat.mod_eq_of_lt o.isLt]

/-! ## Lemmas on decoding and encoding -/

/-- A client reads the `Username` of the encoded user. -/
theorem readString_username (u : User) (members : List (String × EncValue))
    (h : encodeUser u = some members) : readString "username" members = u.Username := by
  unfold encodeUser at h
  split at h
  · cases h
    unfold readString member?
    by_cases h1 : u.ID = "" <;> by_cases h2 : u.Username = "" <;> by_cases h3 : u.Email = "" <;>
      simp [h1, h2, h3, List.find?]
  · cases h

/-- A client reads the `Email` of the encoded user. -/
theorem readString_email (u : User) (members : List (String × EncValue))
    (h : encodeUser u = some members) : readString "email" members = u.Email := by
  unfold encodeUser at h
  split at h
  · cases h
    unfold readString member?
    by_cases h1 : u.ID = "" <;> by_cases h2 : u.Username = "" <;> by_cases h3 : u.Email = "" <;>
      simp [h1, h2, h3, List.find?]
  · cases h

/-- The member `created` of the encoded user is its `Created`. -/
theorem member?_created (u : User) (members : List (String × EncValue))
    (h : encodeUser u = some members) : member? "created" members = some (.time u.Created) := by
  unfold encodeUser at h
  split at h
  · cases h
    unfold member?
    by_cases h1 : u.ID = "" <;> by_cases h2 : u.Username = "" <;> by_cases h3 : u.Email = "" <;>
      simp [h1, h2, h3, List.find?]
  · cases h

/-- The members of the encoded user are among `id`, `username`, `email` and
`created`. -/
theorem encodeUser_keys (u : User) (members : List (String × EncValue))
    (h : encodeUser u = some members) :
    ∀ kv ∈ members, kv.1 ∈ ["id", "username", "email", "created"] := by
  unfold encodeUser at h
  split at h
  · cases h
    by_cases h1 : u.ID = "" <;> by_cases h2 : u.Username = "" <;> by_cases h3 : u.Email = "" <;>
      simp [h1, h2, h3]
  · cases h

/-- The encoder writes the user when the year of `Created` is in range. -/
theorem encodeUser_isSome (u : User) (h : u.Created.yearInRange = true) :
    ∃ members, encodeUser u = some members := by
  unfold encodeUser
  rw [if_pos h]
  exact ⟨_, rfl⟩

/-- The response of `getUserHandler` when the lookup finds a document. -/
theorem getUserHandler_found (env : Env) (coll : Store) (id : String) (objID : ObjectID)
    (d : Doc) (hup : env.storeUp = true) (hid : ObjectIDFromHex id = some objID)
    (hf : coll.find? (fun x => x._id == BsonId.oid objID) = some d) :
    getUserHandler env coll id = (coll, encodeResponse (unmarshalDoc d)) := by
  simp [getUserHandler, getUserById, hid, FindOne, hup, hf]

/-- The response of `getUserHandler` when the lookup finds no document. -/
theorem getUserHandler_not_found (env : Env) (coll : Store) (id : String) (objID : ObjectID)
    (hid : ObjectIDFromHex id = some objID)
    (hf : coll.find? (fun x => x._id == BsonId.oid objID) = none) :
    getUserHandler env coll id = (coll, httpError "User not found" 404) := by
  by_cases hup : env.storeUp = true <;>
    simp [getUserHandler, getUserById, hid, FindOne, hup, hf]

/-- The encoded user does not depend on the password of the document. -/
theorem encode_password_blind (d₁ d₂ : Doc) (h : d₂ = { d₁ with password := d₂.password }) :
    encodeResponse (unmarshalDoc d₂) = encodeResponse (unmarshalDoc d₁) := by
  rw [h]
  simp [encodeResponse, encodeUser, unmarshalDoc]

/-- Lookups in two collections that differ only in passwords find documents that
are encoded alike. -/
theorem find?_password_blind (objID : ObjectID) (k : BsonId) (c₁ c₂ : Store)
    (h : DifferOnlyInPasswordOf objID c₁ c₂) :
    (c₁.find? (fun x => x._id == k)).map (fun d => encodeResponse (unmarshalDoc d)) =
      (c₂.find? (fun x => x._id == k)).map (fun d => encodeResponse (unmarshalDoc d)) := by
  unfold DifferOnlyInPasswordOf at h
  induction h with
  | nil => rfl
  | @cons a b l₁ l₂ hd _ ih =>
    have hid : b._id = a._id := by
      rcases hd with rfl | ⟨_, hb⟩
      · rfl
      · rw [hb]
    have henc : encodeResponse (unmarshalDoc b) = encodeResponse (unmarshalDoc a) := by
      rcases hd with rfl | ⟨_, hb⟩
      · rfl
      · exact encode_password_blind a b hb
    simp only [List.find?, hid]
    cases hk : (a._id == k)
    · exact ih
    · simp [henc]

/-- Decoding an object with no member for `email` leaves `Email` alone. -/
theorem decodeMembers_email_absent (env : Env) (members : List (String × JValue))
    (h : ∀ kv ∈ members, jsonField kv.1 ≠ some .email) (u : User) (err : Bool) :
    (decodeMembers env members u err).1.Email = u.Email := by
  induction members generalizing u err with
  | nil => rfl
  | cons kv rest ih =>
    obtain ⟨k, v⟩ := kv
    have hk : jsonField k ≠ some .email := h (k, v) (List.mem_cons_self _ _)
    have hrest : ∀ kv ∈ rest, jsonField kv.1 ≠ some .email :=
      fun kv hkv => h kv (List.mem_cons_of_mem _ hkv)
    unfold decodeMembers
    split
    · exact ih hrest u err
    · rw [ih hrest]
    · rw [ih hrest]
    · rename_i hj
      exact absurd hj hk
    · split
      · split
        · rfl
        · rw [ih hrest]
      · rw [ih hrest]

/-- Decoding an object with no member for `username` leaves `Username` alone. -/
theorem decodeMembers_username_absent (env : Env) (members : List (String × JValue))
    (h : ∀ kv ∈ members, jsonField kv.1 ≠ some .username) (u : User) (err : Bool) :
    (decodeMembers env members u err).1.Username = u.Username := by
  induction members generalizing u err with
  | nil => rfl
  | cons kv rest ih =>
    obtain ⟨k, v⟩ := kv
    have hk : jsonField k ≠ some .username := h (k, v) (List.mem_cons_self _ _)
    have hrest : ∀ kv ∈ rest, jsonField kv.1 ≠ some .username :=
      fun kv hkv => h kv (List.mem_cons_of_mem _ hkv)
    unfold decodeMembers
    split
    · exact ih hrest u err
    · rw [ih hrest]
    · rename_i hj
      exact absurd hj hk
    · rw [ih hrest]
    · split
      · split
        · rfl
        · rw [ih hrest]
      · rw [ih hrest]

/-- Decoding never stores into `Password`. -/
theorem decodeMembers_password (env : Env) (members : List (String × JValue))
    (u : User) (err : Bool) :
    (decodeMembers env members u err).1.Password = u.Password := by
  induction members generalizing u err with
  | nil => rfl
  | cons kv rest ih =>
    obtain ⟨k, v⟩ := kv
    unfold decodeMembers
    split
    · exact ih u err
    · rw [ih]
    · rw [ih]
    · rw [ih]
    · split
      · split
        · rfl
        · rw [ih]
      · rw [ih]

/-- No request body sets `Password`. -/
theorem decodeUser_password (env : Env) (body : ReqBody) (u : User) :
    (decodeUser env body u).1.Password = u.Password := by
  unfold decodeUser
  split
  · rfl
  · exact decodeMembers_password env _ u false
  · rfl
  · rfl

/-- With unique `_id`, two documents of the collection with the same `_id` are
the same document. -/
theorem unique_same_id (coll : Store) (hu : UniqueIds coll) (a b : Doc)
    (ha : a ∈ coll) (hb : b ∈ coll) (h : a._id = b._id) : a = b :=
  List.inj_on_of_nodup_map hu ha hb h

/-- Every document after `setFirst` continues a document before it, with the
same `_id`, password and creation timestamp. -/
theorem setFirst_mem (objID : ObjectID) (un em : String) (coll : Store) (d' : Doc)
    (h : d' ∈ setFirst objID un em coll) :
    ∃ d ∈ coll, d'._id = d._id ∧ d'.password = d.password ∧ d'.created = d.created := by
  induction coll with
  | nil => cases h
  | cons x xs ih =>
    unfold setFirst at h
    split at h
    · rcases List.mem_cons.mp h with rfl | hm
      · exact ⟨x, List.mem_cons_self _ _, rfl, rfl, rfl⟩
      · exact ⟨d', List.mem_cons_of_mem _ hm, rfl, rfl, rfl⟩
    · rcases List.mem_cons.mp h with rfl | hm
      · exact ⟨d', List.mem_cons_self _ _, rfl, rfl, rfl⟩
      · obtain ⟨d, hd, h3⟩ := ih hm
        exact ⟨d, List.mem_cons_of_mem _ hd, h3⟩

/-- Every document of the state after a request either was inserted by this
request or continues a document of the state before, with the same `_id`,
password and creation timestamp. -/
theorem handle_keeps_created (env : Env) (coll : Store) (req : Request) (d' : Doc)
    (h : d' ∈ (handle env coll req).1) :
    (∃ d ∈ coll, d'._id = d._id ∧ d'.password = d.password ∧ d'.created = d.created) ∨
    ((∀ d ∈ coll, d._id ≠ d'._id) ∧
      ((∃ body, req = .register body ∧ d'.created = some env.now.truncMs) ∨
       (∃ body, req = .adminAdd body ∧
          d'.created =
            (omitZero (decodeUser env body User.zeroValue).1.Created).map Time.truncMs))) := by
  have keep : d' ∈ coll →
      ∃ d ∈ coll, d'._id = d._id ∧ d'.password = d.password ∧ d'.created = d.created :=
    fun hm => ⟨d', hm, rfl, rfl, rfl⟩
  cases req with
  | home => exact Or.inl (keep h)
  | getUser id =>
    simp only [handle, getUserHandler] at h
    split at h <;> exact Or.inl (keep h)
  | register body =>
    simp only [handle, registerHandler] at h
    split at h
    · exact Or.inl (keep h)
    · rename_i c hc
      obtain ⟨rfl, hfree⟩ := InsertOne_inv env coll c _ hc
      rcases List.mem_append.mp h with hm | hm
      · exact Or.inl (keep hm)
      · simp only [List.mem_singleton] at hm
        subst hm
        refine Or.inr ⟨hfree, Or.inl ⟨body, rfl, ?_⟩⟩
        simp [marshalUser, omitZero_now]
  | delete id =>
    simp only [handle, deleteHandler] at h
    split at h
    · exact Or.inl (keep h)
    · unfold DeleteOne at h
      by_cases hup : env.storeUp = true
      · simp only [hup, if_true] at h
        exact Or.inl (keep (List.mem_of_mem_eraseP h))
      · simp only [hup] at h
        exact Or.inl (keep h)
  | admin =>
    simp only [handle, adminHandler] at h
    split at h <;> exact Or.inl (keep h)
  | adminAddForm => exact Or.inl (keep h)
  | adminAdd body =>
    simp only [handle, adminAddUserHandler] at h
    split at h
    · exact Or.inl (keep h)
    · rename_i c hc
      obtain ⟨rfl, hfree⟩ := InsertOne_inv env coll c _ hc
      rcases List.mem_append.mp h with hm | hm
      · exact Or.inl (keep hm)
      · simp only [List.mem_singleton] at hm
        subst hm
        exact Or.inr ⟨hfree, Or.inr ⟨body, rfl, rfl⟩⟩
  | adminEditForm id =>
    simp only [handle, adminEditHandler] at h
    split at h <;> exact Or.inl (keep h)
  | adminEdit id body =>
    simp only [handle, adminEditUserHandler] at h
    split at h
    · exact Or.inl (keep h)
    · split at h
      · exact Or.inl (keep h)
      · unfold UpdateOne at h
        by_cases hup : env.storeUp = true
        · simp only [hup, if_true] at h
          exact Or.inl (setFirst_mem _ _ _ coll d' h)
        · simp only [hup] at h
          exact Or.inl (keep h)

/-- A JSON object that is well formed but puts a number where `email` wants a
string: decoding returns an error, and `username` has been stored all the
same. -/
theorem decodeUser_type_error_keeps_fields :
    decodeUser sampleEnv
      (.value (.object [("username", .string "bob"), ("email", .number "5")]))
      User.zeroValue = ({ User.zeroValue with Username := "bob" }, true) := by
  decide

/-! ## The claims -/

/-- C1: with a path identifier that is not the hexadecimal form of an object
id, whatever the body, the collection and the environment, GET /user/{id}
answers 404 and DELETE /delete/{id} and PUT /admin/edit/{id} answer 400: a
client error each time, never a server error. -/
theorem malformed_id_is_client_error (env : Env) (coll : Store) (id : String) (body : ReqBody)
    (hid : ObjectIDFromHex id = none) :
    ((getUserHandler env coll id).2.status = 404 ∧
      (deleteHandler env coll id).2.status = 400 ∧
      (adminEditUserHandler env coll id body).2.status = 400) ∧
    (IsClientError (getUserHandler env coll id).2 ∧
      IsClientError (deleteHandler env coll id).2 ∧
      IsClientError (adminEditUserHandler env coll id body).2) ∧
    (¬ IsServerError (getUserHandler env coll id).2 ∧
      ¬ IsServerError (deleteHandler env coll id).2 ∧
      ¬ IsServerError (adminEditUserHandler env coll id body).2) := by
  have h1 : (getUserHandler env coll id).2.status = 404 := by
    simp [getUserHandler, getUserById, hid, httpError]
  have h2 : (deleteHandler env coll id).2.status = 400 := by
    simp [deleteHandler, hid, httpError]
  have h3 : (adminEditUserHandler env coll id body).2.status = 400 := by
    unfold adminEditUserHandler
    by_cases hdec : (decodeUser env body User.zeroValue).2 = true
    · simp [hdec, httpError]
    · simp [hdec, hid, httpError]
  refine ⟨⟨h1, h2, h3⟩, ⟨?_, ?_, ?_⟩, ⟨?_, ?_, ?_⟩⟩ <;>
    simp [IsClientError, IsServerError, h1, h2, h3]

theorem malformed_id_is_client_error_witness :
    ObjectIDFromHex "not-an-object-id" = none ∧
    (getUserHandler sampleEnv sampleStore "not-an-object-id").2.status = 404 ∧
    (deleteHandler sampleEnv sampleStore "not-an-object-id").2.status = 400 ∧
    (adminEditUserHandler sampleEnv sampleStore "not-an-object-id" aliceBody).2.status = 400 :=
  ⟨by decide,
    (malformed_id_is_client_error sampleEnv sampleStore "not-an-object-id" aliceBody
      (by decide)).1⟩

/-- C2: with a well-formed identifier and a decodable body, the collection
after PUT /admin/edit/{id} has the same documents at the same places, each
with its `_id`, password and creation timestamp unchanged, and a document
whose `_id` is not the requested one is unchanged altogether. -/
theorem adminEdit_changes_only_username_email (env : Env) (coll : Store) (id : String)
    (objID : ObjectID) (body : ReqBody)
    (hid : ObjectIDFromHex id = some objID)
    (hdec : (decodeUser env body User.zeroValue).2 = false) :
    List.Forall₂
      (fun d d' => d'._id = d._id ∧ d'.password = d.password ∧ d'.created = d.created ∧
        (d._id ≠ .oid objID → d' = d))
      coll (adminEditUserHandler env coll id body).1 := by
  have hsame : List.Forall₂
      (fun d d' => d'._id = d._id ∧ d'.password = d.password ∧ d'.created = d.created ∧
        (d._id ≠ BsonId.oid objID → d' = d)) coll coll :=
    List.forall₂_same.mpr (fun x _ => ⟨rfl, rfl, rfl, fun _ => rfl⟩)
  unfold adminEditUserHandler
  simp only [hdec, hid, UpdateOne]
  by_cases hup : env.storeUp = true
  · simpa [hup] using setFirst_frame objID _ _ coll
  · simp [hup]

theorem adminEdit_changes_only_username_email_witness :
    (adminEditUserHandler sampleEnv sampleStore "65a1b2c3d4e5f60718293a4b"
        (.value (.object [("username", .string "alicia")]))).1 =
      [ { _id := .oid sampleOid, username := some "alicia", email := some "",
          password := some "hunter2", created := some ⟨63840000000000000000⟩ },
        { _id := .oid otherOid, username := some "bob", email := none,
          password := none, created := none } ] ∧
    List.Forall₂
      (fun d d' => d'._id = d._id ∧ d'.password = d.password ∧ d'.created = d.created ∧
        (d._id ≠ .oid sampleOid → d' = d))
      sampleStore
      (adminEditUserHandler sampleEnv sampleStore "65a1b2c3d4e5f60718293a4b"
        (.value (.object [("username", .string "alicia")]))).1 :=
  ⟨by decide,
    adminEdit_changes_only_username_email sampleEnv sampleStore "65a1b2c3d4e5f60718293a4b"
      sampleOid (.value (.object [("username", .string "alicia")])) (by decide) (by decide)⟩

/-- C3, refuted as stated: POST /admin/add of a body whose `created` is an
instant of year 10000 in UTC stores the record under a well-formed
identifier, and GET /user/{id} of that record, the store call going through,
answers 200 with no body at all, the encoder having refused the year. -/
theorem getUser_no_body_beyond_year_9999 :
    adminAddUserHandler sampleEnv [] farBody =
      ([⟨.oid sampleOid, some "dave", some "d@x.com", none,
          some ⟨315537901199000000000⟩⟩], ⟨201, none, .empty⟩) ∧
    ObjectIDFromHex "65a1b2c3d4e5f60718293a4b" = some sampleOid ∧
    laterEnv.storeUp = true ∧
    UniqueIds (adminAddUserHandler sampleEnv [] farBody).1 ∧
    (getUserHandler laterEnv (adminAddUserHandler sampleEnv [] farBody).1
        "65a1b2c3d4e5f60718293a4b").2 = ⟨200, some "application/json", .empty⟩ := by
  decide

/-- C3, amended: when the store call goes through and the collection holds,
under the object id that the path identifier denotes, a document whose
creation timestamp has its year between 0 and 9999, GET /user/{id} answers
200 with the JSON document of that record, in which a client reads the
username and the email of the stored document. -/
theorem getUser_returns_stored_username_email (env : Env) (coll : Store) (id : String)
    (objID : ObjectID) (d : Doc)
    (hup : env.storeUp = true) (hu : UniqueIds coll)
    (hid : ObjectIDFromHex id = some objID) (hd : d ∈ coll) (hdid : d._id = .oid objID)
    (hyear : -31622400000000000 ≤ (d.created.getD Time.zero).ns ∧
      (d.created.getD Time.zero).ns < 315537897600000000000) :
    ∃ members,
      (getUserHandler env coll id).2 = ⟨200, some "application/json", .json members⟩ ∧
      (getUserHandler env coll id).2.status = 200 ∧
      encodeUser (unmarshalDoc d) = some members ∧
      readString "username" members = d.username.getD "" ∧
      readString "email" members = d.email.getD "" := by
  have hf := find?_of_unique (.oid objID) coll hu d hd hdid
  obtain ⟨members, hm⟩ := encodeUser_isSome (unmarshalDoc d)
    (by simpa [Time.yearInRange, unmarshalDoc] using hyear)
  have hresp : (getUserHandler env coll id).2 =
      ⟨200, some "application/json", .json members⟩ := by
    rw [getUserHandler_found env coll id objID d hup hid hf]
    simp [encodeResponse, hm]
  refine ⟨members, hresp, by rw [hresp], hm, ?_, ?_⟩
  · rw [readString_username _ _ hm]; rfl
  · rw [readString_email _ _ hm]; rfl

theorem getUser_returns_stored_username_email_witness :
    ∃ members,
      (getUserHandler laterEnv (registerHandler sampleEnv [] aliceBody).1
        "65a1b2c3d4e5f60718293a4b").2 = ⟨200, some "application/json", .json members⟩ ∧
      (getUserHandler laterEnv (registerHandler sampleEnv [] aliceBody).1
        "65a1b2c3d4e5f60718293a4b").2.status = 200 ∧
      encodeUser (unmarshalDoc
        ⟨.oid sampleOid, some "alice", some "a@x.com", none, some ⟨63840000000000000000⟩⟩) =
        some members ∧
      readString "username" members = "alice" ∧
      readString "email" members = "a@x.com" :=
  getUser_returns_stored_username_email laterEnv (registerHandler sampleEnv [] aliceBody).1
    "65a1b2c3d4e5f60718293a4b" sampleOid
    ⟨.oid sampleOid, some "alice", some "a@x.com", none, some ⟨63840000000000000000⟩⟩
    (by decide) (by decide) (by decide) (by decide) (by decide) (by decide)

/-- C4: the JSON document GET /user/{id} writes has no member other than
`id`, `username`, `email` and `created`, hence no `password` member; and two
collections that differ only in the password of the requested record get the
same response. -/
theorem getUser_never_shows_password :
    (∀ (env : Env) (coll : Store) (id : String) (members : List (String × EncValue)),
      (getUserHandler env coll id).2.body = .json members →
      (∀ kv ∈ members, kv.1 ∈ ["id", "username", "email", "created"]) ∧
      member? "password" members = none) ∧
    (∀ (env : Env) (c₁ c₂ : Store) (id : String) (objID : ObjectID),
      ObjectIDFromHex id = some objID → DifferOnlyInPasswordOf objID c₁ c₂ →
      (getUserHandler env c₁ id).2 = (getUserHandler env c₂ id).2) := by
  constructor
  · intro env coll id members hm
    have hkeys : ∀ kv ∈ members, kv.1 ∈ ["id", "username", "email", "created"] := by
      unfold getUserHandler at hm
      split at hm
      · simp [httpError] at hm
      · rename_i user _
        simp only [encodeResponse] at hm
        split at hm
        · rename_i written hw
          simp only [RespBody.json.injEq] at hm
          subst hm
          exact encodeUser_keys user written hw
        · simp at hm
    refine ⟨hkeys, ?_⟩
    unfold member?
    rw [List.find?_eq_none.mpr]
    · rfl
    · intro kv hkv hk
      have h1 := hkeys kv hkv
      have h2 : kv.1 = "password" := by simpa using hk
      rw [h2] at h1
      revert h1
      decide
  · intro env c₁ c₂ id objID hid hdiff
    have hf := find?_password_blind objID (.oid objID) c₁ c₂ hdiff
    unfold getUserHandler getUserById
    simp only [hid, FindOne]
    by_cases hup : env.storeUp = true
    · simp only [hup, if_true]
      cases h1 : c₁.find? (fun x => x._id == BsonId.oid objID) <;>
        cases h2 : c₂.find? (fun x => x._id == BsonId.oid objID) <;>
        simp [h1, h2] at hf ⊢
      exact hf
    · simp [hup]

theorem getUser_never_shows_password_witness :
    member? "password"
      [("id", .str "65a1b2c3d4e5f60718293a4b"), ("username", .str "alice"),
        ("email", .str "a@x.com"), ("created", .time ⟨63840000000000000000⟩)] = none ∧
    (getUserHandler sampleEnv sampleStore "65a1b2c3d4e5f60718293a4b").2 =
      (getUserHandler sampleEnv rekeyedStore "65a1b2c3d4e5f60718293a4b").2 :=
  ⟨(getUser_never_shows_password.1 sampleEnv sampleStore "65a1b2c3d4e5f60718293a4b" _
      (by decide)).2,
    getUser_never_shows_password.2 sampleEnv sampleStore rekeyedStore
      "65a1b2c3d4e5f60718293a4b" sampleOid (by decide)
      (List.Forall₂.cons (Or.inr ⟨rfl, rfl⟩)
        (List.Forall₂.cons (Or.inl rfl) List.Forall₂.nil))⟩

/-- C5: with a well-formed identifier and the store call going through,
DELETE /delete/{id} answers with the status 200 and no body whether or not a
document has that identifier; when none has, the collection is unchanged; and
a second DELETE of the same identifier answers 200 again and leaves the state
of the first. -/
theorem delete_is_idempotent (env env' : Env) (coll : Store) (id : String) (objID : ObjectID)
    (hid : ObjectIDFromHex id = some objID)
    (hup : env.storeUp = true) (hup' : env'.storeUp = true) (hu : UniqueIds coll) :
    (deleteHandler env coll id).2.status = 200 ∧
    (deleteHandler env coll id).2 = ⟨200, none, .empty⟩ ∧
    ((∀ d ∈ coll, d._id ≠ .oid objID) → (deleteHandler env coll id).1 = coll) ∧
    (∀ d ∈ (deleteHandler env coll id).1, d._id ≠ .oid objID) ∧
    (deleteHandler env' (deleteHandler env coll id).1 id).2.status = 200 ∧
    (deleteHandler env' (deleteHandler env coll id).1 id).1 = (deleteHandler env coll id).1 ∧
    deleteHandler env' (deleteHandler env coll id).1 id = deleteHandler env coll id := by
  have h1 : deleteHandler env coll id =
      (coll.eraseP (fun x => x._id == BsonId.oid objID), ⟨200, none, .empty⟩) := by
    simp [deleteHandler, hid, DeleteOne, hup, writeHeader]
  have h2 : ∀ c, deleteHandler env' c id =
      (c.eraseP (fun x => x._id == BsonId.oid objID), ⟨200, none, .empty⟩) := by
    intro c
    simp [deleteHandler, hid, DeleteOne, hup', writeHeader]
  have hgone := eraseP_no_match (.oid objID) coll hu
  have htwice : deleteHandler env' (deleteHandler env coll id).1 id = deleteHandler env coll id := by
    rw [h2, h1]
    simp only
    rw [eraseP_absent _ _ hgone]
  refine ⟨by rw [h1], by rw [h1], fun habs => ?_, by rw [h1]; exact hgone, ?_, ?_, htwice⟩
  · rw [h1]
    exact eraseP_absent _ coll habs
  · rw [htwice, h1]
  · rw [htwice]

theorem delete_is_idempotent_witness :
    (deleteHandler sampleEnv sampleStore "65a1b2c3d4e5f60718293a4b").1 =
      [ { _id := .oid otherOid, username := some "bob", email := none,
          password := none, created := none } ] ∧
    (deleteHandler sampleEnv sampleStore "65a1b2c3d4e5f60718293a4b").2.status = 200 ∧
    (deleteHandler laterEnv (deleteHandler sampleEnv sampleStore "65a1b2c3d4e5f60718293a4b").1
        "65a1b2c3d4e5f60718293a4b").2.status = 200 ∧
    deleteHandler laterEnv (deleteHandler sampleEnv sampleStore "65a1b2c3d4e5f60718293a4b").1
        "65a1b2c3d4e5f60718293a4b" =
      deleteHandler sampleEnv sampleStore "65a1b2c3d4e5f60718293a4b" :=
  ⟨by decide,
    (delete_is_idempotent sampleEnv laterEnv sampleStore "65a1b2c3d4e5f60718293a4b" sampleOid
      (by decide) (by decide) (by decide) (by decide)).1,
    (delete_is_idempotent sampleEnv laterEnv sampleStore "65a1b2c3d4e5f60718293a4b" sampleOid
      (by decide) (by decide) (by decide) (by decide)).2.2.2.2.1,
    (delete_is_idempotent sampleEnv laterEnv sampleStore "65a1b2c3d4e5f60718293a4b" sampleOid
      (by decide) (by decide) (by decide) (by decide)).2.2.2.2.2.2⟩

/-- C6, refuted as stated.  A body that carries an `id` is stored under that
string: no GET /user/{id} shows the record, whatever the identifier, and the
same POST /register once more inserts nothing and answers 500.  And the
timestamp stored is the clock reading cut to the millisecond: a request issued
0.2 ms after a whole millisecond and handled 0.3 ms later gets a timestamp
that is earlier than the instant it was issued. -/
theorem register_own_id_or_sub_millisecond :
    registerHandler sampleEnv [] ownIdBody =
      ([⟨.str "chosen-by-client", some "mallory", none, none,
          some ⟨63840000000000000000⟩⟩], ⟨201, none, .empty⟩) ∧
    (∀ id : String,
      (getUserHandler laterEnv (registerHandler sampleEnv [] ownIdBody).1 id).2.status = 404) ∧
    (registerHandler laterEnv (registerHandler sampleEnv [] ownIdBody).1 ownIdBody).1 =
      (registerHandler sampleEnv [] ownIdBody).1 ∧
    (registerHandler laterEnv (registerHandler sampleEnv [] ownIdBody).1 ownIdBody).2.status =
      500 ∧
    issuedInstant.ns ≤ subMillisecondEnv.now.ns ∧
    registerHandler subMillisecondEnv [] aliceBody =
      ([⟨.oid sampleOid, some "alice", some "a@x.com", none,
          some ⟨63840000000000000000⟩⟩], ⟨201, none, .empty⟩) ∧
    (⟨63840000000000000000⟩ : Time).ns < issuedInstant.ns := by
  refine ⟨by decide, ?_, by decide, by decide, by decide, by decide, by decide⟩
  intro id
  have hs : (registerHandler sampleEnv [] ownIdBody).1 =
      [⟨.str "chosen-by-client", some "mallory", none, none,
        some ⟨63840000000000000000⟩⟩] := by decide
  rw [hs]
  cases h : ObjectIDFromHex id with
  | none => simp [getUserHandler, getUserById, h, httpError]
  | some objID =>
    have hf := find?_append_str []
      ⟨.str "chosen-by-client", some "mallory", none, none, some ⟨63840000000000000000⟩⟩
      "chosen-by-client" objID rfl
    rw [getUserHandler_not_found laterEnv
      [⟨.str "chosen-by-client", some "mallory", none, none, some ⟨63840000000000000000⟩⟩]
      id objID h hf]
    rfl

/-- C6, amended: whatever the body, when the insert succeeds (the store call
goes through and the `_id` of the new document is free) POST /register answers
201 and appends one document whose creation timestamp is the clock reading of
the request cut to the whole millisecond: not the zero instant, not later than
the reading and less than a millisecond before it, so not earlier than the
millisecond of any instant that precedes the reading, and whatever `created`
the body carries.  When the body carries no `id`, a GET /user/{id} with the
hexadecimal form of the generated object id answers 200 with that timestamp as
`created`; when it carries one, every GET /user/{id} answers as it did before
the insert. -/
theorem register_stamps_clock_reading (env : Env) (coll : Store) (body : ReqBody)
    (hup : env.storeUp = true)
    (hfree : ∀ d ∈ coll, d._id ≠ insertId env (decodeUser env body User.zeroValue).1) :
    registerHandler env coll body =
      (coll ++ [marshalUser env { (decodeUser env body User.zeroValue).1 with Created := env.now }],
        ⟨201, none, .empty⟩) ∧
    (marshalUser env
      { (decodeUser env body User.zeroValue).1 with Created := env.now }).created =
        some ⟨env.now.ns / 1000000 * 1000000⟩ ∧
    (⟨env.now.ns / 1000000 * 1000000⟩ : Time) ≠ Time.zero ∧
    (env.now.ns - 1000000 < env.now.ns / 1000000 * 1000000 ∧
      env.now.ns / 1000000 * 1000000 ≤ env.now.ns) ∧
    (∀ issued : Time, issued.ns ≤ env.now.ns →
      issued.ns / 1000000 * 1000000 ≤ env.now.ns / 1000000 * 1000000) ∧
    ((decodeUser env body User.zeroValue).1.ID = "" → ∀ env' : Env, env'.storeUp = true →
      ∃ members,
        (getUserHandler env' (registerHandler env coll body).1 env.newObjectID.Hex).2 =
          ⟨200, some "application/json", .json members⟩ ∧
        member? "created" members = some (.time ⟨env.now.ns / 1000000 * 1000000⟩)) ∧
    ((decodeUser env body User.zeroValue).1.ID ≠ "" → ∀ (env' : Env) (id : String),
      (getUserHandler env' (registerHandler env coll body).1 id).2 =
        (getUserHandler env' coll id).2) := by
  have hreg : registerHandler env coll body =
      (coll ++ [marshalUser env { (decodeUser env body User.zeroValue).1 with Created := env.now }],
        ⟨201, none, .empty⟩) := by
    unfold registerHandler
    simp only
    rw [InsertOne_ok env coll _ hup (by rw [insertId_created]; exact hfree)]
    rfl
  have hcreated : (marshalUser env
      { (decodeUser env body User.zeroValue).1 with Created := env.now }).created =
        some env.now.truncMs := by
    simp [marshalUser, omitZero_now]
  refine ⟨hreg, hcreated, (truncMs_now env).2, ⟨truncMs_gt _, truncMs_le _⟩,
    fun issued h => truncMs_mono issued env.now h, ?_, ?_⟩
  · intro hempty env' hup'
    have hoid : insertId env (decodeUser env body User.zeroValue).1 = .oid env.newObjectID := by
      simp [insertId, omitEmpty, hempty]
    have hf := find?_append_last coll
      (marshalUser env { (decodeUser env body User.zeroValue).1 with Created := env.now })
      (.oid env.newObjectID) (by rw [← hoid]; exact hfree) (by rw [← hoid]; rfl)
    have hyear : (unmarshalDoc (marshalUser env
        { (decodeUser env body User.zeroValue).1 with Created := env.now })).Created.yearInRange =
          true := by
      simp only [unmarshalDoc, hcreated, Option.getD_some]
      exact (truncMs_now env).1
    obtain ⟨members, hm⟩ := encodeUser_isSome _ hyear
    refine ⟨members, ?_, ?_⟩
    · rw [hreg]
      simp only
      rw [getUserHandler_found env' _ _ env.newObjectID _ hup' (ObjectIDFromHex_Hex _) hf]
      simp [encodeResponse, hm]
    · rw [member?_created _ _ hm]
      simp [unmarshalDoc, hcreated, Time.truncMs]
  · intro hown env' id
    have hstr : (marshalUser env
        { (decodeUser env body User.zeroValue).1 with Created := env.now })._id =
          .str (decodeUser env body User.zeroValue).1.ID := by
      simp [marshalUser, insertId, omitEmpty, hown]
    rw [hreg]
    simp only [getUserHandler, getUserById, FindOne]
    cases ObjectIDFromHex id with
    | none => rfl
    | some objID =>
      simp only
      rw [find?_append_str coll _ _ objID hstr]
      split <;> rfl

theorem register_stamps_clock_reading_witness :
    registerHandler subMillisecondEnv [] backdatedBody =
      ([⟨.oid subMillisecondEnv.newObjectID, some "carol", none, none,
          some ⟨63840000000000000000⟩⟩], ⟨201, none, .empty⟩) ∧
    subMillisecondEnv.now = ⟨63840000000000500000⟩ ∧
    (decodeUser subMillisecondEnv backdatedBody User.zeroValue).1.Created =
      ⟨63713433600000000000⟩ ∧
    (getUserHandler laterEnv (registerHandler subMillisecondEnv [] backdatedBody).1
        "65a1b2c3d4e5f60718293a4b").2 =
      ⟨200, some "application/json",
        .json [("id", .str "65a1b2c3d4e5f60718293a4b"), ("username", .str "carol"),
          ("created", .time ⟨63840000000000000000⟩)]⟩ :=
  ⟨(register_stamps_clock_reading subMillisecondEnv [] backdatedBody (by decide)
      (by decide)).1,
    by decide, by decide, by decide⟩

/-- C7, refuted as stated: POST /admin/add and POST /register with a body
that carries an `id` insert the document under that string, not under the
object id generated on the store side. -/
theorem inserted_id_taken_from_body :
    adminAddUserHandler sampleEnv [] ownIdBody =
      ([⟨.str "chosen-by-client", some "mallory", none, none, none⟩], ⟨201, none, .empty⟩) ∧
    registerHandler sampleEnv [] ownIdBody =
      ([⟨.str "chosen-by-client", some "mallory", none, none, some ⟨63840000000000000000⟩⟩],
        ⟨201, none, .empty⟩) ∧
    ¬ (∀ (env : Env) (coll : Store) (body : ReqBody),
        ∀ d ∈ (adminAddUserHandler env coll body).1, d ∉ coll → d._id = .oid env.newObjectID) ∧
    ¬ (∀ (env : Env) (coll : Store) (body : ReqBody),
        ∀ d ∈ (registerHandler env coll body).1, d ∉ coll → d._id = .oid env.newObjectID) := by
  refine ⟨by decide, by decide, fun h => ?_, fun h => ?_⟩
  · exact absurd (h sampleEnv [] ownIdBody
      ⟨.str "chosen-by-client", some "mallory", none, none, none⟩ (by decide) (by decide))
      (by decide)
  · exact absurd (h sampleEnv [] ownIdBody
      ⟨.str "chosen-by-client", some "mallory", none, none, some ⟨63840000000000000000⟩⟩
      (by decide) (by decide)) (by decide)

/-- C7, amended: a successful POST /register or POST /admin/add appends one
document; its `_id` is the object id generated on the store side when the
decoded body has an empty `id`, and the string `id` of the decoded body
otherwise; and in every state reachable through the handlers no two documents
share an `_id`. -/
theorem inserted_id_and_uniqueness :
    (∀ (env : Env) (coll : Store) (body : ReqBody),
      (registerHandler env coll body).2.status = 201 →
      ∃ d, (registerHandler env coll body).1 = coll ++ [d] ∧
        ((decodeUser env body User.zeroValue).1.ID = "" → d._id = .oid env.newObjectID) ∧
        ((decodeUser env body User.zeroValue).1.ID ≠ "" →
          d._id = .str (decodeUser env body User.zeroValue).1.ID)) ∧
    (∀ (env : Env) (coll : Store) (body : ReqBody),
      (adminAddUserHandler env coll body).2.status = 201 →
      ∃ d, (adminAddUserHandler env coll body).1 = coll ++ [d] ∧
        ((decodeUser env body User.zeroValue).1.ID = "" → d._id = .oid env.newObjectID) ∧
        ((decodeUser env body User.zeroValue).1.ID ≠ "" →
          d._id = .str (decodeUser env body User.zeroValue).1.ID)) ∧
    (∀ coll : Store, Reachable coll → UniqueIds coll) := by
  have hid : ∀ (env : Env) (u : User),
      (u.ID = "" → insertId env u = .oid env.newObjectID) ∧
      (u.ID ≠ "" → insertId env u = .str u.ID) := by
    intro env u
    constructor <;> intro h <;> simp [insertId, omitEmpty, h]
  refine ⟨?_, ?_, reachable_unique⟩
  · intro env coll body h
    unfold registerHandler at h ⊢
    simp only at h ⊢
    split at h
    · simp [httpError] at h
    · rename_i c hc
      obtain ⟨rfl, _⟩ := InsertOne_inv env coll c _ hc
      exact ⟨_, rfl, hid env _⟩
  · intro env coll body h
    unfold adminAddUserHandler at h ⊢
    simp only at h ⊢
    split at h
    · simp [httpError] at h
    · rename_i c hc
      obtain ⟨rfl, _⟩ := InsertOne_inv env coll c _ hc
      exact ⟨_, rfl, hid env _⟩

theorem inserted_id_and_uniqueness_witness :
    (∃ d, (registerHandler sampleEnv [] aliceBody).1 = [] ++ [d] ∧
      ((decodeUser sampleEnv aliceBody User.zeroValue).1.ID = "" →
        d._id = .oid sampleEnv.newObjectID) ∧
      ((decodeUser sampleEnv aliceBody User.zeroValue).1.ID ≠ "" →
        d._id = .str (decodeUser sampleEnv aliceBody User.zeroValue).1.ID)) ∧
    UniqueIds (handle laterEnv (handle sampleEnv [] (.register aliceBody)).1
      (.adminAdd ownIdBody)).1 :=
  ⟨inserted_id_and_uniqueness.1 sampleEnv [] aliceBody (by decide),
    inserted_id_and_uniqueness.2.2 _
      (Reachable.step laterEnv (.adminAdd ownIdBody)
        (Reachable.step sampleEnv (.register aliceBody) Reachable.init))⟩

/-- C8, the failing input: POST /admin/add stores no creation timestamp of
the server.  A body without `created` gives a document without creation
timestamp, shown by GET /user/{id} as the zero instant, and a body with a
`created` of its own gives a document carrying that one, while POST /register
of the same bodies stores the clock reading. -/
theorem adminAdd_does_not_stamp_clock_reading :
    adminAddUserHandler sampleEnv [] aliceBody =
      ([⟨.oid sampleOid, some "alice", some "a@x.com", none, none⟩], ⟨201, none, .empty⟩) ∧
    (getUserHandler laterEnv (adminAddUserHandler sampleEnv [] aliceBody).1
        "65a1b2c3d4e5f60718293a4b").2 =
      ⟨200, some "application/json",
        .json [("id", .str "65a1b2c3d4e5f60718293a4b"), ("username", .str "alice"),
          ("email", .str "a@x.com"), ("created", .time Time.zero)]⟩ ∧
    adminAddUserHandler sampleEnv [] backdatedBody =
      ([⟨.oid sampleOid, some "carol", none, none, some ⟨63713433600000000000⟩⟩], ⟨201, none, .empty⟩) ∧
    registerHandler sampleEnv [] aliceBody =
      ([⟨.oid sampleOid, some "alice", some "a@x.com", none, some sampleEnv.now⟩],
        ⟨201, none, .empty⟩) ∧
    sampleEnv.now = ⟨63840000000000000000⟩ := by
  decide

/-- C9: with a body that holds no complete JSON value, decoding fails and
POST /register goes on: when the store call goes through and the generated
object id is free, it answers 201 with an empty body and appends a document
with no username, no email and no password, whose only content is the
generated `_id` and the clock reading, as a BSON date, as creation
timestamp. -/
theorem register_malformed_body_inserts_zero_record (env : Env) (coll : Store)
    (hup : env.storeUp = true) (hfree : ∀ d ∈ coll, d._id ≠ .oid env.newObjectID) :
    decodeUser env .invalid User.zeroValue = (User.zeroValue, true) ∧
    registerHandler env coll .invalid =
      (coll ++ [⟨.oid env.newObjectID, none, none, none,
          some ⟨env.now.ns / 1000000 * 1000000⟩⟩],
        ⟨201, none, .empty⟩) := by
  refine ⟨rfl, ?_⟩
  unfold registerHandler
  simp only
  rw [InsertOne_ok env coll _ hup (by simpa [insertId, decodeUser, User.zeroValue, omitEmpty] using hfree)]
  simp [marshalUser, insertId, decodeUser, User.zeroValue, omitEmpty, omitZero_now,
    writeHeader, Time.truncMs]

theorem register_malformed_body_inserts_zero_record_witness :
    registerHandler freshEnv sampleStore .invalid =
      (sampleStore ++ [⟨.oid freshEnv.newObjectID, none, none, none,
          some ⟨63840000009000000000⟩⟩],
        ⟨201, none, .empty⟩) :=
  (register_malformed_body_inserts_zero_record freshEnv sampleStore (by decide) (by decide)).2

/-- C10: with the store call going through, a well-formed identifier and a
decodable body, PUT /admin/edit/{id} answers with the status 200 and no body,
whether or not a document has the identifier; the document that had the
identifier now has exactly the decoded username and email, the empty string
for a field no member of the body designates; and when no document has the
identifier the collection is unchanged. -/
theorem adminEdit_overwrites_username_email (env : Env) (coll : Store) (id : String)
    (objID : ObjectID) (body : ReqBody)
    (hup : env.storeUp = true) (hid : ObjectIDFromHex id = some objID)
    (hdec : (decodeUser env body User.zeroValue).2 = false) :
    (adminEditUserHandler env coll id body).2.status = 200 ∧
    (adminEditUserHandler env coll id body).2 = ⟨200, none, .empty⟩ ∧
    (∀ d ∈ coll, d._id = .oid objID → UniqueIds coll →
      (adminEditUserHandler env coll id body).1.find? (fun x => x._id == BsonId.oid objID) =
        some { d with
          username := some (decodeUser env body User.zeroValue).1.Username
          email := some (decodeUser env body User.zeroValue).1.Email }) ∧
    ((∀ d ∈ coll, d._id ≠ .oid objID) → (adminEditUserHandler env coll id body).1 = coll) ∧
    (∀ members, body = .value (.object members) →
      ((∀ kv ∈ members, jsonField kv.1 ≠ some .username) →
        (decodeUser env body User.zeroValue).1.Username = "") ∧
      ((∀ kv ∈ members, jsonField kv.1 ≠ some .email) →
        (decodeUser env body User.zeroValue).1.Email = "")) := by
  have hrun : adminEditUserHandler env coll id body =
      (setFirst objID (decodeUser env body User.zeroValue).1.Username
        (decodeUser env body User.zeroValue).1.Email coll, ⟨200, none, .empty⟩) := by
    unfold adminEditUserHandler
    simp [hdec, hid, UpdateOne, hup, writeHeader]
  refine ⟨by rw [hrun], by rw [hrun], ?_, ?_, ?_⟩
  · intro d hd hdid hu
    rw [hrun]
    exact setFirst_find? objID _ _ coll d (find?_of_unique _ coll hu d hd hdid)
  · intro habs
    rw [hrun]
    exact setFirst_of_absent objID _ _ coll habs
  · intro members hb
    subst hb
    exact ⟨fun h => decodeMembers_username_absent env members h User.zeroValue false,
      fun h => decodeMembers_email_absent env members h User.zeroValue false⟩

theorem adminEdit_overwrites_username_email_witness :
    (adminEditUserHandler laterEnv sampleStore "65a1b2c3d4e5f60718293a4b"
        (.value (.object [("username", .string "alicia")]))) =
      ([ { _id := .oid sampleOid, username := some "alicia", email := some "",
           password := some "hunter2", created := some ⟨63840000000000000000⟩ },
         { _id := .oid otherOid, username := some "bob", email := none,
           password := none, created := none } ], ⟨200, none, .empty⟩) ∧
    (adminEditUserHandler laterEnv sampleStore "65a1b2c3d4e5f60718293a4b"
        (.value (.object [("username", .string "alicia")]))).2.status = 200 ∧
    (adminEditUserHandler laterEnv sampleStore "0123456789abcdef01234567"
        (.value (.object [("username", .string "alicia")]))).2.status = 200 ∧
    (decodeUser laterEnv (.value (.object [("username", .string "alicia")]))
        User.zeroValue).1.Email = "" :=
  ⟨by decide,
    (adminEdit_overwrites_username_email laterEnv sampleStore "65a1b2c3d4e5f60718293a4b"
      sampleOid (.value (.object [("username", .string "alicia")]))
      (by decide) (by decide) (by decide)).1,
    (adminEdit_overwrites_username_email laterEnv sampleStore "0123456789abcdef01234567"
      ⟨0x0123456789abcdef01234567, by norm_num⟩
      (.value (.object [("username", .string "alicia")]))
      (by decide) (by decide) (by decide)).1,
    ((adminEdit_overwrites_username_email laterEnv sampleStore "65a1b2c3d4e5f60718293a4b"
      sampleOid (.value (.object [("username", .string "alicia")]))
      (by decide) (by decide) (by decide)).2.2.2.2 _ rfl).2 (by decide)⟩

end Gofinal
